import Mathlib

/-!
Verification of the ttyhlauncher version-management core (`VersionsManager`
and the `VersionIndex` JSON parser) against its natural-language
specification.  The definitions below are shallow embeddings of the C++
source: `QString` is modelled by `String`, `QList`/`QStringList` by
`List`, `QHash` by association lists or finite partial functions, and the
asynchronous callback chains by explicit step functions that also record
the externally visible events (network requests, file writes, log lines).
-/

namespace Ttyh

/-- The descending string order used by the source
(`std::sort(..., std::greater<QString>())`): `a` comes before `b`
when `b ≤ a` in the lexicographic order on strings. -/
def descRel (a b : String) : Prop := b ≤ a

instance : DecidableRel descRel :=
  fun a b => decidable_of_iff (b.toList ≤ a.toList) String.le_iff_toList_le.symm

instance : IsTotal String descRel := ⟨fun a b => le_total b a⟩

instance : IsTrans String descRel := ⟨fun _ _ _ h1 h2 => le_trans h2 h1⟩

/-- `std::sort(v.begin(), v.end(), std::greater<QString>())`: sort a list of
version identifiers in descending lexicographic order. -/
def sortDesc (l : List String) : List String := l.insertionSort descRel

/-- `VersionsManager::fetchNextPrefixOrFinish`, merge step (part_000 lines
155-167): build the set of already-known local versions, append every remote
version that is not in that set, then re-sort descending.  The membership
test uses the set built once before the loop, exactly as the source builds
`knownVersions` before iterating `versionsIndex.versions`. -/
def mergeVersions (localVs remoteVs : List String) : List String :=
  let known := localVs
  sortDesc (remoteVs.foldl (fun acc v => if v ∈ known then acc else acc ++ [v]) localVs)

/-- Metadata held for one prefix in the prefixes index.  Modelled from the
spec: the `PrefixesIndex` manifest type (json/prefixesindex.h) is not under
src/; §6 gives its wire shape as an object mapping a prefix id to at least
an `about` string. -/
structure PrefixMeta where
  about : String
deriving DecidableEq

/-- `VersionsManager::fetchPrefixes` merge loop (part_000 lines 111-117):
for every key of the fetched remote index, overwrite the in-memory catalog
entry for that key with the remote metadata.  The catalog (a `QHash`) is
modelled as a finite partial map `String → Option PrefixMeta`; the remote
index is given by its key/value pair list (a `QHash` holds pairwise
distinct keys). -/
def mergeIndexEntries (localIdx : String → Option PrefixMeta)
    (remote : List (String × PrefixMeta)) : String → Option PrefixMeta :=
  remote.foldl (fun m kv => fun pid => if pid = kv.1 then some kv.2 else m pid) localIdx

/-- One subdirectory of a prefix's local versions directory as seen by
`VersionsManager::findLocalVersions` (part_000 lines 58-86): the directory
name (the candidate version id), whether the cached version descriptor file
`<dir>/<dir>.json` could be opened, and the `id` field parsed from it. -/
structure VersionDirEntry where
  dirName : String
  readable : Bool
  parsedId : String
deriving DecidableEq

/-- Log lines emitted by the local-version discovery scan. -/
inductive LogMsg where
  | infoFound (versionId : String)
  | warnWrongId (dirName parsedId : String)
deriving DecidableEq

/-- Loop body of `findLocalVersions` (part_000 lines 64-80): an unreadable
descriptor is skipped silently; a descriptor whose embedded id differs from
the directory name is skipped with a warning; otherwise the version id is
appended to the accepted list with an info line. -/
def scanStep (acc : List String × List LogMsg) (e : VersionDirEntry) :
    List String × List LogMsg :=
  if e.readable then
    if e.parsedId = e.dirName then
      (acc.1 ++ [e.dirName], acc.2 ++ [LogMsg.infoFound e.dirName])
    else
      (acc.1, acc.2 ++ [LogMsg.warnWrongId e.dirName e.parsedId])
  else acc

/-- Result of one `findLocalVersions` run: the prefix's version list, its
latest-version pointer, and the log lines the run emitted. -/
structure ScanResult where
  versions : List String
  latest : String
  log : List LogMsg
deriving DecidableEq

/-- `VersionsManager::findLocalVersions` (part_000 lines 58-86): scan the
prefix's version subdirectories, appending each accepted version id to the
prefix's existing version list (the list is not cleared first), sort the
result in descending lexicographic order, and, when the sorted list has
more than one element, point `latestVersionId` at its second element
(`prefix.versions[1]`); otherwise leave the pointer unchanged. -/
def findLocalVersions (initVersions : List String) (latestOld : String)
    (entries : List VersionDirEntry) : ScanResult :=
  let s := entries.foldl scanStep (initVersions, [])
  let sorted := sortDesc s.1
  { versions := sorted
    latest := if h : 1 < sorted.length then sorted.get ⟨1, h⟩ else latestOld
    log := s.2 }

/-- The version ids the scan accepts: readable descriptor whose embedded id
matches the directory name. -/
def acceptedIds (entries : List VersionDirEntry) : List String :=
  entries.filterMap fun e =>
    if e.readable then
      (if e.parsedId = e.dirName then some e.dirName else none)
    else none

/-- The log lines the scan emits, in scan order. -/
def scanLog (entries : List VersionDirEntry) : List LogMsg :=
  entries.filterMap fun e =>
    if e.readable then
      (if e.parsedId = e.dirName then some (LogMsg.infoFound e.dirName)
       else some (LogMsg.warnWrongId e.dirName e.parsedId))
    else none

/-- Externally observable events of the per-version manifest fetch flow:
the three network requests issued by `makeGetRequest` and the three local
descriptor writes, in the order they happen. -/
inductive FEvent where
  | fetchVersion
  | writeVersion
  | fetchAssets
  | writeAssets
  | fetchData
  | writeData
deriving DecidableEq

/-- Environment of one run of the per-version manifest fetch flow
(`fetchVersionMainIndex` → `fetchVersionAssetsIndex` →
`fetchVersionDataIndex`, part_000 lines 198-294): the outcome of each
network request (`reply->error() == NoError`), the outcome of each local
file open (`QFile::open(WriteOnly)`), the physical outcome of each byte
write (`QFile::write` — whether the bytes actually reached the disk), and
the assets-index reference parsed from the fetched version descriptor.
The source never inspects the return value of any of its three
`file.write(...)` calls (lines 223, 262, 291), so the three write-outcome
fields cannot influence the control flow; they are carried so that this
independence is statable. -/
structure FetchEnv where
  mainFetchOk : Bool
  mainOpenOk : Bool
  mainWriteOk : Bool
  parsedAssets : String
  assetsFetchOk : Bool
  assetsOpenOk : Bool
  assetsWriteOk : Bool
  dataFetchOk : Bool
  dataOpenOk : Bool
  dataWriteOk : Bool

/-- The per-version manifest fetch flow (part_000 lines 198-294) as a step
function: final outcome (the boolean passed to
`setFetchVersionIndexesResult`) plus the event trace.  Stage one requests
the version descriptor; on fetch or open failure the flow stops with
failure; otherwise the raw bytes are written (the `file.write` return
value at line 223 is not checked), the descriptor is parsed, and stage two
fails immediately on an empty assets-index reference before issuing its
request; stage three runs only after the assets descriptor is fetched and
written; after the data-stage open succeeds the flow reports success
unconditionally (line 292) — the write outcomes at lines 223, 262 and 291
never enter any condition, which is why the environment's write-outcome
fields do not appear below. -/
def runVersionFetch (env : FetchEnv) : Bool × List FEvent :=
  if env.mainFetchOk then
    if env.mainOpenOk then
      if env.parsedAssets.isEmpty then
        (false, [.fetchVersion, .writeVersion])
      else
        if env.assetsFetchOk then
          if env.assetsOpenOk then
            if env.dataFetchOk then
              if env.dataOpenOk then
                (true, [.fetchVersion, .writeVersion, .fetchAssets, .writeAssets,
                  .fetchData, .writeData])
              else
                (false, [.fetchVersion, .writeVersion, .fetchAssets, .writeAssets,
                  .fetchData])
            else
              (false, [.fetchVersion, .writeVersion, .fetchAssets, .writeAssets,
                .fetchData])
          else
            (false, [.fetchVersion, .writeVersion, .fetchAssets])
        else
          (false, [.fetchVersion, .writeVersion, .fetchAssets])
    else
      (false, [.fetchVersion])
  else
    (false, [.fetchVersion])

/-- The network requests of a trace, in order. -/
def fetchEventsOf (t : List FEvent) : List FEvent :=
  t.filter fun e =>
    match e with
    | .fetchVersion => true
    | .fetchAssets => true
    | .fetchData => true
    | _ => false

/-- Filesystem operations performed by the prefixes-index save step of
`fetchPrefixes` (part_000 lines 119-126): `QFile::open(WriteOnly)`
truncates the target file in place, and `QFile::write` appends bytes to
it.  The source performs no staged write (no temporary file, no rename). -/
inductive DiskOp where
  | truncateAt (path : String)
  | writeAt (path : String) (content : String)

/-- Effect of one disk operation; the disk is a total map from file path
to current file content. -/
def applyOp (disk : String → String) : DiskOp → String → String
  | .truncateAt p => fun q => if q = p then "" else disk q
  | .writeAt p c => fun q => if q = p then disk q ++ c else disk q

/-- Run a sequence of disk operations. -/
def runOps (disk : String → String) (ops : List DiskOp) : String → String :=
  ops.foldl applyOp disk

/-- The operations `fetchPrefixes` performs on the persisted prefixes
index file (part_000 lines 119-121): open the final index path for
writing — truncating whatever was there — then write the newly serialized
index. -/
def saveIndexOps (path content : String) : List DiskOp :=
  [.truncateAt path, .writeAt path content]

/-- A sequence of disk operations is crash-atomic for `path` when, starting
from any disk holding `old` at `path`, after every prefix of the sequence
(every crash point) the file holds either the complete old or the complete
new content. -/
def crashAtomicFor (ops : List DiskOp) (path old new : String) : Prop :=
  ∀ disk : String → String, disk path = old →
    ∀ k, k ≤ ops.length →
      runOps disk (ops.take k) path = old ∨ runOps disk (ops.take k) path = new

/-- A content hash / byte size pair, the value type of the data and assets
descriptor maps (spec wire shape `{hash, size}`). -/
structure CheckInfo where
  hash : String
  size : Nat
deriving DecidableEq

/-- `Storage::FileInfo`, the unit `fillVersionFiles` emits: remote URL,
local install path, expected content hash, expected byte size. -/
structure FileInfo where
  url : String
  path : String
  hash : String
  size : Nat
deriving DecidableEq

/-- A (prefix identifier, version identifier) pair. -/
structure FullVersionId where
  pfx : String
  id : String
deriving DecidableEq

/-- Modelled from the spec: `FullVersionId::toString` (fullversionid.h is
not under src/); the layout in §4.3 together with the source's use
`"%1/%2/data.json".arg(versionsPath, version.toString())` fixes it to
`<prefix>/<version>`. -/
def FullVersionId.toStr (v : FullVersionId) : String := v.pfx ++ "/" ++ v.id

/-- One library descriptor as `fillVersionFiles` consumes it.  Modelled
from the spec: `Json::LibraryInfo` and the platform oracle
`Utils::Platform::isLibraryAllowed` / `getLibraryPath` are not under src/;
§6 specifies the oracle contract as a platform-applicability verdict plus
a canonical storage path per library, carried here as fields. -/
structure LibraryInfo where
  allowed : Bool
  storagePath : String
deriving DecidableEq

/-- The loaded data descriptor.  Field shapes are the spec's wire shape
(`main: {hash, size}`, `files: {relpath: {hash, size}}`,
`libs: {storagepath: {hash, size}}`); `valid` models
`DataIndex::isValid()`, whose definition (json/dataindex.h) is not under
src/. -/
structure DataIndex where
  valid : Bool
  main : CheckInfo
  files : List (String × CheckInfo)
  libs : List (String × CheckInfo)
deriving DecidableEq

/-- The loaded version descriptor as `fillVersionFiles` consumes it:
`valid` models `VersionIndex::isValid()` (declaration not under src/),
`libraries` the parsed library list, `assetsIndex` the assets-index
reference. -/
structure VersionIdx where
  valid : Bool
  libraries : List LibraryInfo
  assetsIndex : String
deriving DecidableEq

/-- The loaded assets descriptor: `valid` models
`AssetsIndex::isValid()` (declaration not under src/), `objects` the
asset (hash, size) entries in iteration order. -/
structure AssetsIdx where
  valid : Bool
  objects : List CheckInfo
deriving DecidableEq

/-- The main artifact entry (part_000 lines 331-334):
`"%1/%2/%3/%3.jar"` instantiated with the store URL and the local
versions path, hash and size from the data descriptor's `main`. -/
def mainFileInfo (storeUrl versionsPath : String) (v : FullVersionId)
    (d : DataIndex) : FileInfo :=
  { url := storeUrl ++ "/" ++ v.pfx ++ "/" ++ v.id ++ "/" ++ v.id ++ ".jar"
    path := versionsPath ++ "/" ++ v.pfx ++ "/" ++ v.id ++ "/" ++ v.id ++ ".jar"
    hash := d.main.hash
    size := d.main.size }

/-- The auxiliary file entries (part_000 lines 336-342):
`"%1/%2/files/%3"` per key of the data descriptor's `files` map. -/
def auxFileInfos (storeUrl versionsPath : String) (v : FullVersionId)
    (d : DataIndex) : List FileInfo :=
  d.files.map fun kv =>
    { url := storeUrl ++ "/" ++ v.toStr ++ "/files/" ++ kv.1
      path := versionsPath ++ "/" ++ v.toStr ++ "/files/" ++ kv.1
      hash := kv.2.hash
      size := kv.2.size }

/-- The library entries (part_000 lines 351-366): platform-filtered, then
looked up in the data descriptor's `libs` map (missing entries are skipped
with a warning), stored under the shared `libraries` directory. -/
def libFileInfos (storeUrl dataPath : String) (libs : List LibraryInfo)
    (d : DataIndex) : List FileInfo :=
  libs.filterMap fun lib =>
    if lib.allowed then
      match d.libs.lookup lib.storagePath with
      | some ci =>
        some { url := storeUrl ++ "/libraries/" ++ lib.storagePath
               path := dataPath ++ "/libraries/" ++ lib.storagePath
               hash := ci.hash
               size := ci.size }
      | none => none
    else none

/-- The asset entries (part_000 lines 375-381): content-addressed under
`assets/objects`, the relative name being the first two characters of the
hash, a slash, then the full hash. -/
def assetFileInfos (storeUrl dataPath : String) (ai : AssetsIdx) : List FileInfo :=
  ai.objects.map fun a =>
    { url := storeUrl ++ "/assets/objects/" ++ (a.hash.take 2 ++ "/" ++ a.hash)
      path := dataPath ++ "/assets/objects/" ++ (a.hash.take 2 ++ "/" ++ a.hash)
      hash := a.hash
      size := a.size }

/-- `VersionsManager::fillVersionFiles` (part_000 lines 320-385), with the
three descriptor loads supplied as inputs: check the data descriptor,
append the main artifact and the auxiliary files to the caller's list,
check the version descriptor, append the platform-filtered libraries,
check the assets descriptor, append the assets; a failed check stops the
function with `false` and the list as accumulated so far. -/
def fillVersionFiles (storeUrl dataPath versionsPath : String)
    (v : FullVersionId) (d : DataIndex) (vi : VersionIdx) (ai : AssetsIdx)
    (files : List FileInfo) : Bool × List FileInfo :=
  if d.valid = false then (false, files)
  else
    let files1 := files ++ [mainFileInfo storeUrl versionsPath v d]
    let files2 := d.files.foldl (fun acc kv => acc ++
      [{ url := storeUrl ++ "/" ++ v.toStr ++ "/files/" ++ kv.1
         path := versionsPath ++ "/" ++ v.toStr ++ "/files/" ++ kv.1
         hash := kv.2.hash
         size := kv.2.size }]) files1
    if vi.valid = false then (false, files2)
    else
      let files3 := vi.libraries.foldl (fun acc lib =>
        if lib.allowed then
          match d.libs.lookup lib.storagePath with
          | some ci => acc ++
            [{ url := storeUrl ++ "/libraries/" ++ lib.storagePath
               path := dataPath ++ "/libraries/" ++ lib.storagePath
               hash := ci.hash
               size := ci.size }]
          | none => acc
        else acc) files2
      if ai.valid = false then (false, files3)
      else
        (true, ai.objects.foldl (fun acc a => acc ++
          [{ url := storeUrl ++ "/assets/objects/" ++ (a.hash.take 2 ++ "/" ++ a.hash)
             path := dataPath ++ "/assets/objects/" ++ (a.hash.take 2 ++ "/" ++ a.hash)
             hash := a.hash
             size := a.size }]) files3)

/-- `QString::split(' ')` with Qt's default of keeping empty parts,
modelled on the character list of the string. -/
def qsplit (s : String) (c : Char) : List String :=
  (s.toList.splitOn c).map fun l => String.mk l

/-- Joining argument tokens with a single separator character (the inverse
wire encoding of the legacy space-delimited `minecraftArguments`). -/
def qjoin (parts : List String) (c : Char) : String :=
  String.mk (List.intercalate [c] (parts.map String.toList))

/-- A member of the `arguments.game` JSON array: a string token or a
non-string element (the rule objects the parser skips). -/
inductive JToken where
  | jstr (s : String)
  | other
deriving DecidableEq

/-- Modelled from the spec: `Json::AssetDownloadInfo`
(json/assetdownloadinfo.h) is not under src/; §6 gives the modern
`assetIndex` object as `{id, sha1}`. -/
structure AssetDownloadInfo where
  id : String
  sha1 : String
deriving DecidableEq

/-- The version-descriptor JSON fields `VersionIndex::VersionIndex`
(src/json/versionindex.cpp) reads for the assets-index reference and the
game arguments: the optional modern `assetIndex` object, the legacy flat
`assets` string, the optional modern `arguments.game` array, and the
legacy space-delimited `minecraftArguments` string.  A `none` models a
missing key (`jObject.contains(...)` false). -/
structure VersionDoc where
  assetIndexObj : Option AssetDownloadInfo
  assetsStr : String
  argumentsGame : Option (List JToken)
  minecraftArguments : String
deriving DecidableEq

/-- versionindex.cpp lines 10-17: when the document carries an
`assetIndex` object, combine it into the composite reference
`"<sha1>/<id>"`; otherwise fall back to the legacy flat `assets` string. -/
def parseAssetsIndexRef (doc : VersionDoc) : String :=
  match doc.assetIndexObj with
  | some info => info.sha1 ++ "/" ++ info.id
  | none => doc.assetsStr

/-- versionindex.cpp lines 26-35: with a modern `arguments.game` array,
keep exactly the string tokens; otherwise split the legacy space-delimited
`minecraftArguments` string on spaces (Qt keeps empty parts). -/
def parseGameArguments (doc : VersionDoc) : List String :=
  match doc.argumentsGame with
  | some toks =>
    toks.filterMap fun t =>
      match t with
      | JToken.jstr s => some s
      | JToken.other => none
  | none => qsplit doc.minecraftArguments ' '

end Ttyh

namespace Ttyh

theorem foldl_append_if (p : String → Prop) [DecidablePred p] :
    ∀ (l init : List String),
      l.foldl (fun acc v => if p v then acc else acc ++ [v]) init
        = init ++ l.filter (fun v => decide (¬ p v)) := by
  intro l
  induction l with
  | nil => intro init; simp
  | cons x xs ih =>
    intro init
    by_cases hx : p x
    · simp [List.foldl_cons, hx, ih]
    · simp [List.foldl_cons, hx, ih]

theorem mergeVersions_eq (localVs remoteVs : List String) :
    mergeVersions localVs remoteVs
      = sortDesc (localVs ++ remoteVs.filter (fun v => decide (v ∉ localVs))) := by
  show sortDesc (remoteVs.foldl (fun acc v => if v ∈ localVs then acc else acc ++ [v]) localVs)
      = sortDesc (localVs ++ remoteVs.filter (fun v => decide (v ∉ localVs)))
  rw [foldl_append_if (fun v => v ∈ localVs)]

theorem sortDesc_perm (l : List String) : List.Perm (sortDesc l) l :=
  List.perm_insertionSort descRel l

theorem sortDesc_sorted (l : List String) : List.Sorted descRel (sortDesc l) :=
  List.sorted_insertionSort descRel l

/-- Claim C1, counterexample to the statement as written: the claim is
quantified over all version-id lists, but when the remote list itself
contains a duplicate identifier the merge loop (whose known-set is built
once, before the loop) appends it twice, so the merged list is not
duplicate-free; moreover with local `["a"]` and remote `["a", "a", "b"]`
the merged length is 2, below the remote length 3. -/
theorem claim_C1_cex :
    mergeVersions [] ["a", "a"] = ["a", "a"]
      ∧ ¬ (mergeVersions [] ["a", "a"]).Nodup
      ∧ (mergeVersions ["a"] ["a", "a", "b"]).length
          < max (List.length ["a"]) (List.length ["a", "a", "b"]) := by
  decide

/-- Claim C1 (amended): for duplicate-free local and remote version-id
lists, the merged list produced by the per-prefix version fetch step is the
set union of the two lists (same members), has no duplicates, is sorted in
descending lexicographic order, and is at least as long as either input
list. -/
theorem claim_C1 (localVs remoteVs : List String)
    (hl : localVs.Nodup) (hr : remoteVs.Nodup) :
    (∀ x, x ∈ mergeVersions localVs remoteVs ↔ x ∈ localVs ∨ x ∈ remoteVs)
      ∧ (mergeVersions localVs remoteVs).Nodup
      ∧ List.Sorted descRel (mergeVersions localVs remoteVs)
      ∧ max localVs.length remoteVs.length ≤ (mergeVersions localVs remoteVs).length := by
  have hperm : List.Perm (mergeVersions localVs remoteVs)
      (localVs ++ remoteVs.filter (fun v => decide (v ∉ localVs))) := by
    rw [mergeVersions_eq]
    exact sortDesc_perm _
  refine ⟨?_, ?_, ?_, ?_⟩
  · intro x
    rw [hperm.mem_iff, List.mem_append, List.mem_filter]
    constructor
    · rintro (h | ⟨h, -⟩)
      exacts [Or.inl h, Or.inr h]
    · rintro (h | h)
      · exact Or.inl h
      · by_cases hx : x ∈ localVs
        · exact Or.inl hx
        · exact Or.inr ⟨h, by simpa using hx⟩
  · rw [hperm.nodup_iff]
    refine hl.append (hr.filter _) ?_
    intro a ha haf
    rcases List.mem_filter.mp haf with ⟨-, hdec⟩
    have hna : a ∉ localVs := by simpa using hdec
    exact hna ha
  · rw [mergeVersions_eq]
    exact sortDesc_sorted _
  · have hlen : (mergeVersions localVs remoteVs).length
        = localVs.length + (remoteVs.filter (fun v => decide (v ∉ localVs))).length := by
      rw [hperm.length_eq, List.length_append]
    rw [hlen]
    refine max_le (Nat.le_add_right _ _) ?_
    have hsplit := List.length_eq_length_filter_add
      (l := remoteVs) (fun v => decide (v ∈ localVs))
    have hfeq : remoteVs.filter (fun v => !(decide (v ∈ localVs)))
        = remoteVs.filter (fun v => decide (v ∉ localVs)) := by
      simp [decide_not]
    rw [hfeq] at hsplit
    have hsub : (remoteVs.filter (fun v => decide (v ∈ localVs))).length
        ≤ localVs.length := by
      refine List.Subperm.length_le (List.subperm_of_subset (hr.filter _) ?_)
      intro a haf
      rcases List.mem_filter.mp haf with ⟨-, hdec⟩
      simpa using hdec
    omega

/-- Claim C1 witness at the specification's own scenario: local versions
`["1.0"]`, remote versions `["1.2", "1.1"]`. -/
theorem claim_C1_witness :
    ("1.2" ∈ mergeVersions ["1.0"] ["1.2", "1.1"]
        ↔ "1.2" ∈ ["1.0"] ∨ "1.2" ∈ ["1.2", "1.1"])
      ∧ (mergeVersions ["1.0"] ["1.2", "1.1"]).Nodup
      ∧ List.Sorted descRel (mergeVersions ["1.0"] ["1.2", "1.1"])
      ∧ max (List.length ["1.0"]) (List.length ["1.2", "1.1"])
          ≤ (mergeVersions ["1.0"] ["1.2", "1.1"]).length := by
  have h := claim_C1 ["1.0"] ["1.2", "1.1"] (by decide) (by decide)
  exact ⟨h.1 "1.2", h.2.1, h.2.2.1, h.2.2.2⟩

theorem mergeIndexEntries_cons (localIdx : String → Option PrefixMeta)
    (kv : String × PrefixMeta) (rest : List (String × PrefixMeta)) :
    mergeIndexEntries localIdx (kv :: rest)
      = mergeIndexEntries (fun pid => if pid = kv.1 then some kv.2 else localIdx pid) rest :=
  rfl

theorem mergeIndexEntries_not_mem_key :
    ∀ (remote : List (String × PrefixMeta)) (localIdx : String → Option PrefixMeta)
      (pid : String), pid ∉ remote.map Prod.fst →
      mergeIndexEntries localIdx remote pid = localIdx pid := by
  intro remote
  induction remote with
  | nil => intro localIdx pid _; rfl
  | cons kv rest ih =>
    intro localIdx pid hpid
    rw [List.map_cons, List.mem_cons] at hpid
    push_neg at hpid
    rw [mergeIndexEntries_cons, ih _ _ hpid.2]
    simp [hpid.1]

/-- Claim C2: after the `fetchPrefixes` merge loop, the catalog's key set is
the union of the local and the remote key sets, and for every key of the
remote index the merged catalog holds exactly the remote metadata (remote
wins), including for prefixes that were already known locally. -/
theorem claim_C2 (localIdx : String → Option PrefixMeta)
    (remote : List (String × PrefixMeta))
    (hkeys : (remote.map Prod.fst).Nodup) :
    (∀ pid, mergeIndexEntries localIdx remote pid ≠ none
        ↔ (localIdx pid ≠ none ∨ pid ∈ remote.map Prod.fst))
      ∧ (∀ pid d, (pid, d) ∈ remote → mergeIndexEntries localIdx remote pid = some d) := by
  induction remote generalizing localIdx with
  | nil =>
    refine ⟨fun pid => ?_, fun pid d h => absurd h (List.not_mem_nil _)⟩
    simp [mergeIndexEntries]
  | cons kv rest ih =>
    rw [List.map_cons] at hkeys
    have hkv : kv.1 ∉ rest.map Prod.fst := (List.nodup_cons.mp hkeys).1
    have ihr := ih (fun pid => if pid = kv.1 then some kv.2 else localIdx pid)
      (List.nodup_cons.mp hkeys).2
    constructor
    · intro pid
      rw [mergeIndexEntries_cons, ihr.1 pid, List.map_cons, List.mem_cons]
      by_cases hpid : pid = kv.1 <;> simp [hpid]
    · intro pid d hmem
      rcases List.mem_cons.mp hmem with heq | htail
      · have h1 : pid = kv.1 := by rw [← heq]
        have h2 : d = kv.2 := by rw [← heq]
        subst h1; subst h2
        rw [mergeIndexEntries_cons, mergeIndexEntries_not_mem_key _ _ _ hkv]
        simp
      · exact (mergeIndexEntries_cons localIdx kv rest) ▸ ihr.2 pid d htail

/-- Claim C2 witness: a local catalog knowing `release` (with local
metadata) merged with a remote index carrying new metadata for `release`
and a previously unknown `test` prefix: the remote copy wins for `release`,
and `test` joins the key set. -/
theorem claim_C2_witness :
    (mergeIndexEntries
        (fun pid => if pid = "release" then some ⟨"local release"⟩ else none)
        [("release", ⟨"remote release"⟩), ("test", ⟨"testing"⟩)] "test" ≠ none
      ↔ ((fun pid => if pid = "release" then some (PrefixMeta.mk "local release") else none)
            "test" ≠ none
          ∨ "test" ∈ List.map Prod.fst
              [("release", PrefixMeta.mk "remote release"), ("test", PrefixMeta.mk "testing")]))
      ∧ mergeIndexEntries
          (fun pid => if pid = "release" then some ⟨"local release"⟩ else none)
          [("release", ⟨"remote release"⟩), ("test", ⟨"testing"⟩)] "release"
        = some ⟨"remote release"⟩ := by
  have h := claim_C2
    (fun pid => if pid = "release" then some ⟨"local release"⟩ else none)
    [("release", ⟨"remote release"⟩), ("test", ⟨"testing"⟩)] (by decide)
  exact ⟨h.1 "test", h.2 "release" ⟨"remote release"⟩ (by simp)⟩

theorem scanFold_eq :
    ∀ (entries : List VersionDirEntry) (vs : List String) (lg : List LogMsg),
      entries.foldl scanStep (vs, lg)
        = (vs ++ acceptedIds entries, lg ++ scanLog entries) := by
  intro entries
  induction entries with
  | nil => intro vs lg; simp [acceptedIds, scanLog]
  | cons e rest ih =>
    intro vs lg
    by_cases hr : e.readable <;> by_cases hid : e.parsedId = e.dirName <;>
      simp [scanStep, acceptedIds, scanLog, hr, hid, ih]

theorem findLocalVersions_versions (initVersions : List String)
    (latestOld : String) (entries : List VersionDirEntry) :
    (findLocalVersions initVersions latestOld entries).versions
      = sortDesc (initVersions ++ acceptedIds entries) := by
  show sortDesc (entries.foldl scanStep (initVersions, [])).1
      = sortDesc (initVersions ++ acceptedIds entries)
  rw [scanFold_eq]

theorem findLocalVersions_log (initVersions : List String)
    (latestOld : String) (entries : List VersionDirEntry) :
    (findLocalVersions initVersions latestOld entries).log = scanLog entries := by
  show (entries.foldl scanStep (initVersions, [])).2 = scanLog entries
  rw [scanFold_eq]
  simp

theorem mem_findLocalVersions (initVersions : List String) (latestOld : String)
    (entries : List VersionDirEntry) (x : String) :
    x ∈ (findLocalVersions initVersions latestOld entries).versions
      ↔ x ∈ initVersions ∨ x ∈ acceptedIds entries := by
  rw [findLocalVersions_versions, (sortDesc_perm _).mem_iff, List.mem_append]

/-- Claim C5: after local-version discovery, when the resulting version
list has more than one element the latest-version pointer is its second
element (index 1 of the descending-sorted list); with one or zero elements
the pointer keeps its previous value. -/
theorem claim_C5 (initVersions : List String) (latestOld : String)
    (entries : List VersionDirEntry) :
    (1 < (findLocalVersions initVersions latestOld entries).versions.length →
        (findLocalVersions initVersions latestOld entries).versions.get? 1
          = some (findLocalVersions initVersions latestOld entries).latest)
      ∧ ((findLocalVersions initVersions latestOld entries).versions.length ≤ 1 →
        (findLocalVersions initVersions latestOld entries).latest = latestOld) := by
  constructor
  · intro h
    show (findLocalVersions initVersions latestOld entries).versions.get? 1
        = some (if hh : 1 < (sortDesc (entries.foldl scanStep (initVersions, [])).1).length
            then (sortDesc (entries.foldl scanStep (initVersions, [])).1).get ⟨1, hh⟩
            else latestOld)
    have h2 : 1 < (sortDesc (entries.foldl scanStep (initVersions, [])).1).length := h
    rw [dif_pos h2]
    exact List.get?_eq_get h2
  · intro h
    show (if hh : 1 < (sortDesc (entries.foldl scanStep (initVersions, [])).1).length
        then (sortDesc (entries.foldl scanStep (initVersions, [])).1).get ⟨1, hh⟩
        else latestOld) = latestOld
    exact dif_neg (Nat.not_lt.mpr h)

/-- Claim C5 witness: with two accepted local versions the pointer lands on
the second of the descending-sorted list; with no version directories at
all it keeps its previous value. -/
theorem claim_C5_witness :
    (findLocalVersions [] "" [⟨"1.0", true, "1.0"⟩, ⟨"1.1", true, "1.1"⟩]).versions.get? 1
        = some (findLocalVersions [] "" [⟨"1.0", true, "1.0"⟩, ⟨"1.1", true, "1.1"⟩]).latest
      ∧ (findLocalVersions [] "unchanged" []).latest = "unchanged" := by
  exact ⟨(claim_C5 [] "" [⟨"1.0", true, "1.0"⟩, ⟨"1.1", true, "1.1"⟩]).1 (by decide),
    (claim_C5 [] "unchanged" []).2 (by decide)⟩

/-- Claim C6, counterexample to the statement as written: the scan appends
to the prefix's existing version list without clearing it, so a second run
over the unchanged directory tree duplicates every accepted version: one
directory `1.0` yields `["1.0"]` on the first run but `["1.0", "1.0"]` on
the second. -/
theorem claim_C6_cex :
    (findLocalVersions [] "" [⟨"1.0", true, "1.0"⟩]).versions = ["1.0"]
      ∧ (findLocalVersions (findLocalVersions [] "" [⟨"1.0", true, "1.0"⟩]).versions
            (findLocalVersions [] "" [⟨"1.0", true, "1.0"⟩]).latest
            [⟨"1.0", true, "1.0"⟩]).versions = ["1.0", "1.0"]
      ∧ (findLocalVersions (findLocalVersions [] "" [⟨"1.0", true, "1.0"⟩]).versions
            (findLocalVersions [] "" [⟨"1.0", true, "1.0"⟩]).latest
            [⟨"1.0", true, "1.0"⟩]).versions
          ≠ (findLocalVersions [] "" [⟨"1.0", true, "1.0"⟩]).versions := by
  decide

/-- Claim C6 (amended): local-version discovery is idempotent only up to
membership — a second run over an unchanged tree yields a version list with
exactly the same members (no version appears or disappears), but the list
itself is the first list with the accepted versions appended again and
re-sorted, so each accepted version is duplicated rather than the list
being repeated verbatim. -/
theorem claim_C6 (initVersions : List String) (latestOld latestOld2 : String)
    (entries : List VersionDirEntry) (x : String) :
    (x ∈ (findLocalVersions (findLocalVersions initVersions latestOld entries).versions
            latestOld2 entries).versions
        ↔ x ∈ (findLocalVersions initVersions latestOld entries).versions)
      ∧ (findLocalVersions (findLocalVersions initVersions latestOld entries).versions
            latestOld2 entries).versions
          = sortDesc ((findLocalVersions initVersions latestOld entries).versions
              ++ acceptedIds entries) := by
  refine ⟨?_, findLocalVersions_versions _ _ _⟩
  rw [mem_findLocalVersions, mem_findLocalVersions]
  constructor
  · rintro (h | h)
    · exact h
    · exact Or.inr h
  · exact Or.inl

/-- Claim C7: a readable cached descriptor whose embedded id differs from
its directory name is excluded from the version list (provided no other
entry and no prior list element carries that name), a warning naming the
directory and the offending id is logged, and the scan still accepts every
well-formed entry of the directory listing. -/
theorem claim_C7 (initVersions : List String) (latestOld : String)
    (entries : List VersionDirEntry) (e : VersionDirEntry)
    (he : e ∈ entries) (hr : e.readable = true) (hbad : e.parsedId ≠ e.dirName) :
    LogMsg.warnWrongId e.dirName e.parsedId
        ∈ (findLocalVersions initVersions latestOld entries).log
      ∧ (∀ e2 ∈ entries, e2.readable = true → e2.parsedId = e2.dirName →
          e2.dirName ∈ (findLocalVersions initVersions latestOld entries).versions)
      ∧ (e.dirName ∉ initVersions →
          (∀ e2 ∈ entries, e2.readable = true → e2.parsedId = e2.dirName →
            e2.dirName ≠ e.dirName) →
          e.dirName ∉ (findLocalVersions initVersions latestOld entries).versions) := by
  refine ⟨?_, ?_, ?_⟩
  · rw [findLocalVersions_log]
    exact List.mem_filterMap.mpr ⟨e, he, by simp [hr, hbad]⟩
  · intro e2 he2 hr2 hid2
    rw [mem_findLocalVersions]
    exact Or.inr (List.mem_filterMap.mpr ⟨e2, he2, by simp [hr2, hid2]⟩)
  · intro hinit hother hmem
    rcases (mem_findLocalVersions _ _ _ _).mp hmem with h | h
    · exact hinit h
    · rcases List.mem_filterMap.mp h with ⟨e2, he2, hf⟩
      by_cases hr2 : e2.readable
      · by_cases hid2 : e2.parsedId = e2.dirName
        · rw [if_pos hr2, if_pos hid2] at hf
          exact hother e2 he2 hr2 hid2 (Option.some_injective _ hf)
        · rw [if_pos hr2, if_neg hid2] at hf
          exact Option.noConfusion hf
      · rw [if_neg hr2] at hf
        exact Option.noConfusion hf

/-- Claim C7 witness at the specification's own scenario: a descriptor
stored under `1.0` carries `id: "1.1"`; it is excluded and a warning is
logged, while a well-formed sibling `1.2` is still accepted. -/
theorem claim_C7_witness :
    LogMsg.warnWrongId "1.0" "1.1"
        ∈ (findLocalVersions [] "" [⟨"1.0", true, "1.1"⟩, ⟨"1.2", true, "1.2"⟩]).log
      ∧ "1.2" ∈ (findLocalVersions [] "" [⟨"1.0", true, "1.1"⟩, ⟨"1.2", true, "1.2"⟩]).versions
      ∧ "1.0" ∉ (findLocalVersions [] "" [⟨"1.0", true, "1.1"⟩, ⟨"1.2", true, "1.2"⟩]).versions := by
  have h := claim_C7 [] "" [⟨"1.0", true, "1.1"⟩, ⟨"1.2", true, "1.2"⟩]
    ⟨"1.0", true, "1.1"⟩ (by decide) rfl (by decide)
  exact ⟨h.1, h.2.1 ⟨"1.2", true, "1.2"⟩ (by decide) rfl rfl,
    h.2.2 (by decide) (by decide)⟩

/-- Claim C3, counterexample to the statement as written: the claim makes
any local write failure abort the remaining stages with a failure outcome,
but the source never checks the return value of `file.write` (part_000
lines 223, 262, 291) and reports success unconditionally after the
data-stage open (line 292): with every fetch and open succeeding, a
physically failed main-descriptor write as well as a physically failed
data-descriptor write still end the flow with success. -/
theorem claim_C3_cex :
    (runVersionFetch ⟨true, true, false, "ab/cd", true, true, true, true, true, true⟩).1
        = true
      ∧ (runVersionFetch ⟨true, true, true, "ab/cd", true, true, true, true, true, false⟩).1
        = true := by
  decide

/-- Claim C3 (amended): the per-version manifest fetch flow issues its
network requests strictly in the order version descriptor, assets
descriptor, data descriptor (every trace's request list is a prefix of
that sequence); an empty parsed assets-index reference makes the flow
fail; any fetch failure or local file-open failure aborts the remaining
stages with a failure outcome (shown by the exact abort traces); and the
flow reports success exactly when every fetch and every file open succeeds
and the parsed assets-index reference is nonempty — the physical outcome
of the byte writes is never consulted, so the result and the trace are
unchanged under any write outcomes. -/
theorem claim_C3 (env : FetchEnv) :
    (fetchEventsOf (runVersionFetch env).2 = [FEvent.fetchVersion]
        ∨ fetchEventsOf (runVersionFetch env).2 = [FEvent.fetchVersion, FEvent.fetchAssets]
        ∨ fetchEventsOf (runVersionFetch env).2
            = [FEvent.fetchVersion, FEvent.fetchAssets, FEvent.fetchData])
      ∧ ((runVersionFetch env).1 = true
          ↔ (env.mainFetchOk = true ∧ env.mainOpenOk = true
              ∧ env.parsedAssets.isEmpty = false
              ∧ env.assetsFetchOk = true ∧ env.assetsOpenOk = true
              ∧ env.dataFetchOk = true ∧ env.dataOpenOk = true))
      ∧ (env.mainFetchOk = true → env.mainOpenOk = true →
          env.parsedAssets.isEmpty = true → (runVersionFetch env).1 = false)
      ∧ ((env.mainFetchOk = false → (runVersionFetch env).2 = [FEvent.fetchVersion])
        ∧ (env.mainFetchOk = true → env.mainOpenOk = false →
            (runVersionFetch env).2 = [FEvent.fetchVersion])
        ∧ (env.mainFetchOk = true → env.mainOpenOk = true →
            env.parsedAssets.isEmpty = false →
            (env.assetsFetchOk = false ∨ env.assetsOpenOk = false) →
            (runVersionFetch env).2
              = [FEvent.fetchVersion, FEvent.writeVersion, FEvent.fetchAssets])
        ∧ (env.mainFetchOk = true → env.mainOpenOk = true →
            env.parsedAssets.isEmpty = false →
            env.assetsFetchOk = true → env.assetsOpenOk = true →
            (env.dataFetchOk = false ∨ env.dataOpenOk = false) →
            (runVersionFetch env).2
              = [FEvent.fetchVersion, FEvent.writeVersion, FEvent.fetchAssets,
                FEvent.writeAssets, FEvent.fetchData]))
      ∧ (∀ w1 w2 w3 : Bool,
          runVersionFetch
            { env with mainWriteOk := w1, assetsWriteOk := w2, dataWriteOk := w3 }
            = runVersionFetch env) := by
  obtain ⟨mf, mo, mw, pa, af, ao, aw, df, dw, dww⟩ := env
  cases mf <;> cases mo <;> cases af <;> cases ao <;> cases df <;> cases dw <;>
    cases hpa : pa.isEmpty <;>
    simp [runVersionFetch, fetchEventsOf, hpa]

/-- Claim C3 witness: an all-successful run reports success, and a run
whose fetched descriptor parses to an empty assets-index reference fails. -/
theorem claim_C3_witness :
    ((runVersionFetch ⟨true, true, true, "ab/cd", true, true, true, true, true, true⟩).1
          = true
        ↔ (true = true ∧ true = true ∧ ("ab/cd" : String).isEmpty = false
            ∧ true = true ∧ true = true ∧ true = true ∧ true = true))
      ∧ (runVersionFetch ⟨true, true, true, "", true, true, true, true, true, true⟩).1
          = false := by
  exact ⟨(claim_C3 ⟨true, true, true, "ab/cd", true, true, true, true, true, true⟩).2.1,
    (claim_C3 ⟨true, true, true, "", true, true, true, true, true, true⟩).2.2.1
      rfl rfl (by decide)⟩

/-- Claim C10: once the version-descriptor fetch and the local file open
succeed, the raw descriptor bytes are on disk (the write event is in the
trace) no matter how the rest of the flow goes; in particular, when the
parsed assets-index reference is empty the flow fails with exactly the
version fetch and the version write performed — the persisted descriptor
is not rolled back. -/
theorem claim_C10 (env : FetchEnv)
    (h1 : env.mainFetchOk = true) (h2 : env.mainOpenOk = true) :
    FEvent.writeVersion ∈ (runVersionFetch env).2
      ∧ (env.parsedAssets.isEmpty = true →
          (runVersionFetch env).1 = false
            ∧ (runVersionFetch env).2 = [FEvent.fetchVersion, FEvent.writeVersion]) := by
  obtain ⟨mf, mo, mw, pa, af, ao, aw, df, dw, dww⟩ := env
  cases mf
  · exact Bool.noConfusion h1
  · cases mo
    · exact Bool.noConfusion h2
    · cases af <;> cases ao <;> cases df <;> cases dw <;>
        cases hpa : pa.isEmpty <;>
        simp [runVersionFetch, hpa]

/-- Claim C10 witness: a fetched descriptor with an empty assets-index
reference leaves the flow failed with the descriptor file written. -/
theorem claim_C10_witness :
    FEvent.writeVersion
        ∈ (runVersionFetch ⟨true, true, true, "", true, true, true, true, true, true⟩).2
      ∧ (runVersionFetch ⟨true, true, true, "", true, true, true, true, true, true⟩).1
          = false
      ∧ (runVersionFetch ⟨true, true, true, "", true, true, true, true, true, true⟩).2
          = [FEvent.fetchVersion, FEvent.writeVersion] := by
  have h := claim_C10 ⟨true, true, true, "", true, true, true, true, true, true⟩ rfl rfl
  exact ⟨h.1, (h.2 (by decide)).1, (h.2 (by decide)).2⟩

theorem foldl_append_map {α β : Type} (f : α → β) :
    ∀ (l : List α) (init : List β),
      l.foldl (fun acc x => acc ++ [f x]) init = init ++ l.map f := by
  intro l
  induction l with
  | nil => intro init; simp
  | cons x xs ih => intro init; simp [ih]

theorem libFold_eq (storeUrl dataPath : String) (d : DataIndex) :
    ∀ (libs : List LibraryInfo) (init : List FileInfo),
      libs.foldl (fun acc lib =>
        if lib.allowed then
          match d.libs.lookup lib.storagePath with
          | some ci => acc ++
            [{ url := storeUrl ++ "/libraries/" ++ lib.storagePath
               path := dataPath ++ "/libraries/" ++ lib.storagePath
               hash := ci.hash
               size := ci.size }]
          | none => acc
        else acc) init
      = init ++ libFileInfos storeUrl dataPath libs d := by
  intro libs
  induction libs with
  | nil => intro init; simp [libFileInfos]
  | cons lib rest ih =>
    intro init
    by_cases ha : lib.allowed
    · cases hlk : d.libs.lookup lib.storagePath with
      | some ci => simp [libFileInfos, List.filterMap_cons, ha, hlk, ih]
      | none => simp [libFileInfos, List.filterMap_cons, ha, hlk, ih]
    · simp [libFileInfos, List.filterMap_cons, ha, ih]

/-- Claim C4: when all three descriptors load as valid, assembly succeeds
and returns the file list in the fixed segment order main artifact,
auxiliary files, platform-applicable libraries, assets; when the data,
version, or assets descriptor is invalid, assembly reports failure. -/
theorem claim_C4 (storeUrl dataPath versionsPath : String) (v : FullVersionId)
    (d : DataIndex) (vi : VersionIdx) (ai : AssetsIdx) :
    ((d.valid = true ∧ vi.valid = true ∧ ai.valid = true) →
        fillVersionFiles storeUrl dataPath versionsPath v d vi ai []
          = (true, mainFileInfo storeUrl versionsPath v d
              :: (auxFileInfos storeUrl versionsPath v d
                ++ libFileInfos storeUrl dataPath vi.libraries d
                ++ assetFileInfos storeUrl dataPath ai)))
      ∧ (d.valid = false →
          (fillVersionFiles storeUrl dataPath versionsPath v d vi ai []).1 = false)
      ∧ (vi.valid = false →
          (fillVersionFiles storeUrl dataPath versionsPath v d vi ai []).1 = false)
      ∧ (ai.valid = false →
          (fillVersionFiles storeUrl dataPath versionsPath v d vi ai []).1 = false) := by
  refine ⟨?_, ?_, ?_, ?_⟩
  · rintro ⟨hd, hv, ha⟩
    unfold fillVersionFiles
    rw [hd, hv, ha]
    simp only [foldl_append_map, libFold_eq]
    simp [auxFileInfos, assetFileInfos]
  · intro hd
    unfold fillVersionFiles
    rw [hd]
    simp
  · intro hv
    unfold fillVersionFiles
    rw [hv]
    by_cases hd : d.valid = false <;> simp [hd]
  · intro ha
    unfold fillVersionFiles
    rw [ha]
    by_cases hd : d.valid = false <;> by_cases hv : vi.valid = false <;> simp [hd, hv]

/-- Claim C4 witness: a concrete version with one auxiliary file, one
allowed library present in the data index, one disallowed library, and one
asset assembles into the four segments in order; an invalid data
descriptor aborts with failure. -/
theorem claim_C4_witness :
    fillVersionFiles "http://s" "/data" "/data/versions" ⟨"release", "1.0"⟩
        ⟨true, ⟨"mh", 5⟩, [("config.txt", ⟨"ah", 7⟩)], [("org/lib.jar", ⟨"lh", 3⟩)]⟩
        ⟨true, [⟨true, "org/lib.jar"⟩, ⟨false, "org/skip.jar"⟩], "as/ref"⟩
        ⟨true, [⟨"abcdef", 9⟩]⟩ []
      = (true, mainFileInfo "http://s" "/data/versions" ⟨"release", "1.0"⟩
            ⟨true, ⟨"mh", 5⟩, [("config.txt", ⟨"ah", 7⟩)], [("org/lib.jar", ⟨"lh", 3⟩)]⟩
          :: (auxFileInfos "http://s" "/data/versions" ⟨"release", "1.0"⟩
              ⟨true, ⟨"mh", 5⟩, [("config.txt", ⟨"ah", 7⟩)], [("org/lib.jar", ⟨"lh", 3⟩)]⟩
            ++ libFileInfos "http://s" "/data"
                [⟨true, "org/lib.jar"⟩, ⟨false, "org/skip.jar"⟩]
                ⟨true, ⟨"mh", 5⟩, [("config.txt", ⟨"ah", 7⟩)], [("org/lib.jar", ⟨"lh", 3⟩)]⟩
            ++ assetFileInfos "http://s" "/data" ⟨true, [⟨"abcdef", 9⟩]⟩))
      ∧ (fillVersionFiles "http://s" "/data" "/data/versions" ⟨"release", "1.0"⟩
          ⟨false, ⟨"mh", 5⟩, [], []⟩
          ⟨true, [], "as/ref"⟩ ⟨true, []⟩ []).1 = false := by
  exact ⟨(claim_C4 "http://s" "/data" "/data/versions" ⟨"release", "1.0"⟩
      ⟨true, ⟨"mh", 5⟩, [("config.txt", ⟨"ah", 7⟩)], [("org/lib.jar", ⟨"lh", 3⟩)]⟩
      ⟨true, [⟨true, "org/lib.jar"⟩, ⟨false, "org/skip.jar"⟩], "as/ref"⟩
      ⟨true, [⟨"abcdef", 9⟩]⟩).1 ⟨rfl, rfl, rfl⟩,
    (claim_C4 "http://s" "/data" "/data/versions" ⟨"release", "1.0"⟩
      ⟨false, ⟨"mh", 5⟩, [], []⟩
      ⟨true, [], "as/ref"⟩ ⟨true, []⟩).2.1 rfl⟩

/-- Claim C9, counterexample to the statement as written: the index write
is a truncate-then-write of the final file, so at the crash point after
the truncation and before the write the on-disk index is empty — neither
the complete previous content nor the complete new content. -/
theorem claim_C9_cex :
    ¬ crashAtomicFor (saveIndexOps "versions/prefixes.json" "new index")
        "versions/prefixes.json" "old index" "new index" := by
  intro h
  have h1 := h (fun _ => "old index") rfl 1 (by decide)
  revert h1
  decide

/-- Claim C9 (amended): the prefixes-index write truncates the final file
in place and then writes the full new serialized content: when every
operation completes the file holds exactly the new content, but at the
intermediate crash point, after the truncation and before the write, the
file is empty — the write is not staged through a temporary file and is
not crash-atomic. -/
theorem claim_C9 (disk : String → String) (path newContent : String) :
    runOps disk (saveIndexOps path newContent) path = newContent
      ∧ runOps disk ((saveIndexOps path newContent).take 1) path = "" := by
  constructor
  · show applyOp (applyOp disk (DiskOp.truncateAt path)) (DiskOp.writeAt path newContent) path
        = newContent
    simp [applyOp]
  · show applyOp disk (DiskOp.truncateAt path) path = ""
    simp [applyOp]

theorem qsplit_qjoin (args : List String) (c : Char)
    (hne : args ≠ []) (hsp : ∀ s ∈ args, c ∉ s.toList) :
    qsplit (qjoin args c) c = args := by
  unfold qsplit qjoin
  have h1 : (String.mk (List.intercalate [c] (args.map String.toList))).toList
      = List.intercalate [c] (args.map String.toList) := rfl
  have hx : ∀ l ∈ args.map String.toList, c ∉ l := by
    intro l hl
    rcases List.mem_map.mp hl with ⟨s, hs, hrfl⟩
    rw [← hrfl]
    exact hsp s hs
  have hls : args.map String.toList ≠ [] := by
    intro hmapnil
    exact hne (List.map_eq_nil_iff.mp hmapnil)
  rw [h1, List.splitOn_intercalate _ c hx hls, List.map_map]
  have h2 : ((fun l => String.mk l) ∘ String.toList) = id := funext fun s => rfl
  rw [h2, List.map_id]

theorem filterMap_jstr (args : List String) :
    List.filterMap (fun t => match t with
      | JToken.jstr s => some s
      | JToken.other => none) (args.map JToken.jstr) = args := by
  induction args with
  | nil => rfl
  | cons a l ih => simp [ih]

/-- Claim C8, counterexample to the statement as written: a modern
descriptor with an empty `arguments.game` array and the legacy descriptor
carrying the corresponding space-join (the empty string) have equivalent
semantic content (no game arguments), yet the modern parse yields `[]`
while the legacy split yields `[""]` (Qt's split keeps empty parts), so
the parsed argument lists differ. -/
theorem claim_C8_cex :
    parseAssetsIndexRef ⟨some ⟨"idx", "sha"⟩, "", some [], ""⟩
        = parseAssetsIndexRef ⟨none, "sha/idx", none, qjoin [] ' '⟩
      ∧ qjoin [] ' ' = ""
      ∧ parseGameArguments ⟨some ⟨"idx", "sha"⟩, "", some [], ""⟩ = []
      ∧ parseGameArguments ⟨none, "sha/idx", none, qjoin [] ' '⟩ = [""]
      ∧ parseGameArguments ⟨some ⟨"idx", "sha"⟩, "", some [], ""⟩
          ≠ parseGameArguments ⟨none, "sha/idx", none, qjoin [] ' '⟩ := by
  decide

/-- Claim C8 (amended): for a modern-shape descriptor (structured
`assetIndex`, `arguments.game` array of string tokens) and a legacy-shape
descriptor (flat `assets` string equal to the composite `sha1/id`
reference, `minecraftArguments` the space-join of the same tokens) with
equivalent semantic content, and provided the argument list is nonempty
and no token contains a space (the contents representable in the legacy
encoding at all), parsing yields the same assets-index reference and the
same game-argument list. -/
theorem claim_C8 (sha1 aid : String) (args : List String)
    (mdoc ldoc : VersionDoc)
    (hm1 : mdoc.assetIndexObj = some ⟨aid, sha1⟩)
    (hm2 : mdoc.argumentsGame = some (args.map JToken.jstr))
    (hl1 : ldoc.assetIndexObj = none)
    (hl2 : ldoc.argumentsGame = none)
    (hl3 : ldoc.assetsStr = sha1 ++ "/" ++ aid)
    (hl4 : ldoc.minecraftArguments = qjoin args ' ')
    (hne : args ≠ []) (hsp : ∀ s ∈ args, ' ' ∉ s.toList) :
    parseAssetsIndexRef mdoc = parseAssetsIndexRef ldoc
      ∧ parseGameArguments mdoc = parseGameArguments ldoc := by
  constructor
  · simp [parseAssetsIndexRef, hm1, hl1, hl3]
  · simp only [parseGameArguments, hm2, hl2, hl4]
    rw [filterMap_jstr, qsplit_qjoin args ' ' hne hsp]

/-- Claim C8 witness: the modern document
`assetIndex: {id: "idx", sha1: "sha"}, arguments.game: ["--user",
"alice"]` and the legacy document `assets: "sha/idx",
minecraftArguments: "--user alice"` parse to the same assets-index
reference and the same argument list. -/
theorem claim_C8_witness :
    parseAssetsIndexRef
        ⟨some ⟨"idx", "sha"⟩, "", some [JToken.jstr "--user", JToken.jstr "alice"], ""⟩
        = parseAssetsIndexRef ⟨none, "sha/idx", none, "--user alice"⟩
      ∧ parseGameArguments
          ⟨some ⟨"idx", "sha"⟩, "", some [JToken.jstr "--user", JToken.jstr "alice"], ""⟩
        = parseGameArguments ⟨none, "sha/idx", none, "--user alice"⟩ :=
  claim_C8 "sha" "idx" ["--user", "alice"] _ _
    rfl rfl rfl rfl (by decide) (by decide) (by decide) (by decide)

end Ttyh
